import Mathlib

set_option linter.unusedVariables false

/-! Formal model of the banner text-composition engine of telegram_overlay_bot
(src/main.py, src/app.py, src/bot.py).  The pure string-processing and layout
code is embedded as executable Lean functions; collaborators (font metrics,
the file system, Arabic reshaping, bidirectional reordering, and the JSON
configuration catalogs) are explicit parameters. -/

/-- Whitespace set of Python str.split / str.strip (the ASCII part; the
Unicode extras never occur in the catalogs or texts considered here). -/
def isPySpace (c : Char) : Bool :=
  c == ' ' || c == '\t' || c == '\n' || c == '\r' || c == '\x0b' || c == '\x0c'

/-- Python str.strip() on a character list. -/
def pyStripL (l : List Char) : List Char :=
  ((l.dropWhile isPySpace).reverse.dropWhile isPySpace).reverse

/-- Python str.strip(). -/
def pyStrip (s : String) : String := ⟨pyStripL s.toList⟩

/-- Worker for Python str.split(): accumulates the current word reversed. -/
def pySplitAux : List Char → List Char → List (List Char)
  | [], acc => if acc = [] then [] else [acc.reverse]
  | c :: cs, acc =>
    if isPySpace c then
      if acc = [] then pySplitAux cs [] else acc.reverse :: pySplitAux cs []
    else pySplitAux cs (c :: acc)

/-- Python str.split() with no argument: split on whitespace runs, dropping
empty pieces. -/
def pySplit (s : String) : List String := (pySplitAux s.toList []).map (fun l => ⟨l⟩)

/-- The Arabic-range test of main.py/app.py normalize_text: any character in
U+0600..U+06FF. -/
def hasArabicChar (s : String) : Bool :=
  s.toList.any (fun c => 0x600 ≤ c.toNat && c.toNat ≤ 0x6FF)

/-- main.py normalize_text (lines 291-307) and app.py normalize_text (lines
28-32): if the text has a character in the Arabic range U+0600..U+06FF it is
reshaped (arabic_reshaper.reshape) and bidi-reordered (bidi get_display),
otherwise it is returned unchanged.  The two collaborators are opaque
external functions, passed as parameters. -/
def normalize_text (reshape bidi : String → String) (text : String) : String :=
  if hasArabicChar text then bidi (reshape text) else text

/-- main.py/app.py is_rtl_text: any character in the Hebrew+Arabic ranges
U+0590..U+08FF. -/
def is_rtl_text (s : String) : Bool :=
  s.toList.any (fun c => 0x590 ≤ c.toNat && c.toNat ≤ 0x8FF)

/-- One step of the greedy wrap loop shared by main.py and app.py
wrap_with_limits.  The state is (committed lines, current line); a word is
appended to the current line when the candidate fits or the current line is
empty, otherwise the current line is committed and the word starts a new
one.  The `if max_lines and len(lines) == max_lines - 1: pass` statement in
the source loop is a no-op and is omitted. -/
def wrapStep (tw : String → Int) (max_width : Int) (acc : List String × String)
    (w : String) : List String × String :=
  let test := pyStrip (acc.2 ++ " " ++ w)
  if tw test ≤ max_width ∨ acc.2 = "" then (acc.1, test) else (acc.1 ++ [acc.2], w)

/-- The greedy word-wrap loop of wrap_with_limits, plus the final commit of a
nonempty current line.  `tw` abstracts text_width (draw.textbbox(...)[2]). -/
def wrapWords (tw : String → Int) (max_width : Int) (words : List String) : List String :=
  let r := words.foldl (wrapStep tw max_width) ([], "")
  if r.2 ≠ "" then r.1 ++ [r.2] else r.1

/-- The ellipsis glyph appended by app.py wrap_with_limits. -/
def ellStr : String := "…"

/-- Python s[:-1]. -/
def dropLastChar (s : String) : String := ⟨s.toList.dropLast⟩

/-- First shrink loop of the ellipsis step (app.py lines 63-64): strip the
last character while the line overflows max_width.  Fuel-indexed; the fuel is
instantiated with the string length, which bounds the iteration count. -/
def shrinkAux (tw : String → Int) (max_width : Int) : Nat → String → String
  | 0, s => s
  | fuel + 1, s =>
    if max_width < tw s ∧ 0 < s.length then shrinkAux tw max_width fuel (dropLastChar s)
    else s

/-- Second shrink loop of the ellipsis step (app.py lines 66-67): strip the
last character while line+ellipsis overflows max_width. -/
def shrinkAuxEll (tw : String → Int) (max_width : Int) : Nat → String → String
  | 0, s => s
  | fuel + 1, s =>
    if max_width < tw (s ++ ellStr) ∧ 0 < s.length then
      shrinkAuxEll tw max_width fuel (dropLastChar s)
    else s

/-- The ellipsis step of app.py wrap_with_limits (lines 60-73): shrink the
last line, append the glyph if the line changed, or replace the line by the
glyph alone if it is unchanged but still overflows. -/
def applyEllipsis (tw : String → Int) (max_width : Int) (lines : List String) : List String :=
  match lines.getLast? with
  | none => lines
  | some last0 =>
    let last1 := shrinkAux tw max_width last0.length last0
    let last2 := shrinkAuxEll tw max_width last1.length last1
    if last2 ≠ last0 then lines.dropLast ++ [last2 ++ ellStr]
    else if max_width < tw last2 then lines.dropLast ++ [ellStr]
    else lines

/-- main.py wrap_with_limits (lines 351-373): normalize, split on whitespace
and wrap greedily, then return the wrapped lines at line 373.  The truncation
and ellipsis code at lines 375-394 sits after this return statement and is
unreachable, so the max_lines and ellipsis arguments have no effect. -/
def main_wrap_with_limits (reshape bidi : String → String) (tw : String → Int)
    (text : String) (max_width : Int) (max_lines : Nat) (ellipsis : Bool) : List String :=
  wrapWords tw max_width (pySplit (normalize_text reshape bidi text))

/-- app.py wrap_with_limits up to and including the truncation step (lines
37-57): wrap, then drop lines beyond max_lines when max_lines is nonzero. -/
def app_wrap_base (reshape bidi : String → String) (tw : String → Int)
    (text : String) (max_width : Int) (max_lines : Nat) : List String :=
  let lines := wrapWords tw max_width (pySplit (normalize_text reshape bidi text))
  if max_lines ≠ 0 ∧ max_lines < lines.length then lines.take max_lines else lines

/-- app.py wrap_with_limits (lines 37-74): wrap, truncate to max_lines, then
apply the ellipsis step when requested.  (`applyEllipsis` of an empty list is
the empty list, matching the `if ellipsis and lines` guard.) -/
def app_wrap_with_limits (reshape bidi : String → String) (tw : String → Int)
    (text : String) (max_width : Int) (max_lines : Nat) (ellipsis : Bool) : List String :=
  let lines := app_wrap_base reshape bidi tw text max_width max_lines
  if ellipsis then applyEllipsis tw max_width lines else lines

/-- One step of the greedy loop of bot.py wrap_text: no strip, no join-when-
empty special case on the fit test; an overflowing word commits the current
line (when nonempty) and becomes the new current line. -/
def botWrapStep (tw : String → Int) (max_width : Int) (acc : List String × String)
    (word : String) : List String × String :=
  let test := acc.2 ++ (if acc.2 ≠ "" then " " else "") ++ word
  if tw test ≤ max_width then (acc.1, test)
  else if acc.2 ≠ "" then (acc.1 ++ [acc.2], word)
  else (acc.1, word)

/-- bot.py wrap_text (lines 8-23). -/
def bot_wrap_text (tw : String → Int) (text : String) (max_width : Int) : List String :=
  let r := (pySplit text).foldl (botWrapStep tw max_width) ([], "")
  if r.2 ≠ "" then r.1 ++ [r.2] else r.1

/-- Whether a line ends with the ellipsis glyph. -/
def endsWithEll (s : String) : Bool := s.toList.getLast? == some '…'

/-- Whether a string is empty or whitespace-only (Python: text.split() is
then empty). -/
def isAllSpace (s : String) : Bool := s.toList.all isPySpace

/-- A simple monospace width collaborator used for concrete inputs: every
character is one pixel wide. -/
def lenW (s : String) : Int := s.length

/-! ### Highlight detection (main.py detect_highlights, lines 312-349)

The Python code runs a fixed list of regular expressions over the line with
re.finditer under re.IGNORECASE and yields (start, end, matched text) for
every match of every pattern, in pattern order.  The small regex engine below
models exactly the constructs those patterns use: case-insensitive literals,
one-or-more digits, optional pieces, whitespace star, alternation (tried left
to right), word boundaries and the end anchor; greedy quantifiers produce
their candidate end positions longest first, which is the CPython
backtracking order, so the head of the candidate list is the match CPython
reports. -/

/-- Case folding used for re.IGNORECASE matching (ASCII plus the Cyrillic
letters appearing in the patterns). -/
def lowerChar (c : Char) : Char :=
  if 'A' ≤ c ∧ c ≤ 'Z' then Char.ofNat (c.toNat + 32)
  else if 0x410 ≤ c.toNat ∧ c.toNat ≤ 0x42F then Char.ofNat (c.toNat + 32)
  else if c.toNat = 0x401 then Char.ofNat 0x451
  else c

/-- Python regex word character for the inputs in scope: ASCII alphanumerics,
underscore, and Cyrillic letters. -/
def isWordChar (c : Char) : Bool :=
  c.isAlphanum || c == '_' || (0x400 ≤ c.toNat && c.toNat ≤ 0x4FF)

/-- Digit class of the patterns (ASCII digits). -/
def isReDigit (c : Char) : Bool := c.isDigit

/-- Whitespace class of the patterns (ASCII part). -/
def isReSpace (c : Char) : Bool := isPySpace c

/-- Whether the character at index i (if any) is a word character. -/
def wordAt (cs : List Char) (i : Nat) : Bool :=
  match cs.get? i with
  | some c => isWordChar c
  | none => false

/-- Whether the character before index i (if any) is a word character. -/
def prevWordAt (cs : List Char) (i : Nat) : Bool :=
  match i with
  | 0 => false
  | j + 1 => wordAt cs j

/-- A word boundary holds at i when exactly one side is a word character. -/
def boundaryAt (cs : List Char) (i : Nat) : Bool := prevWordAt cs i != wordAt cs i

/-- Regular-expression fragment language covering the constructs used by the
patterns of detect_highlights. -/
inductive RE where
  | epsR
  | failR
  | lit (s : String)
  | digitsP
  | wsStar
  | seqR (a b : RE)
  | altR (a b : RE)
  | wb
  | eol

/-- Sequencing of a pattern list. -/
def seqs (rs : List RE) : RE := rs.foldr RE.seqR RE.epsR

/-- Alternation of a pattern list, tried left to right. -/
def alts (rs : List RE) : RE := rs.foldr RE.altR RE.failR

/-- Greedy optional piece: try the piece first, then the empty match. -/
def optR (r : RE) : RE := RE.altR r RE.epsR

/-- Alternation of case-insensitive literals. -/
def litsCI (ss : List String) : RE := alts (ss.map RE.lit)

/-- Case-insensitive literal match of the pattern characters at index i. -/
def litAt (cs : List Char) : Nat → List Char → Bool
  | _, [] => true
  | i, c :: rest =>
    match cs.get? i with
    | some d => lowerChar d == lowerChar c && litAt cs (i + 1) rest
    | none => false

/-- Length of the maximal run of characters satisfying p starting at i. -/
def runLen (p : Char → Bool) (cs : List Char) (i : Nat) : Nat :=
  ((cs.drop i).takeWhile p).length

/-- All end positions a fragment can reach from position i, in CPython
backtracking priority order (greedy pieces longest first, alternatives left
to right). -/
def reMatch (cs : List Char) : RE → Nat → List Nat
  | .epsR, i => [i]
  | .failR, _ => []
  | .lit s, i => if litAt cs i s.toList then [i + s.toList.length] else []
  | .digitsP, i =>
    let n := runLen isReDigit cs i
    if n = 0 then [] else (List.range n).map (fun k => i + n - k)
  | .wsStar, i =>
    let n := runLen isReSpace cs i
    (List.range (n + 1)).map (fun k => i + n - k)
  | .seqR a b, i => (reMatch cs a i).flatMap (fun j => reMatch cs b j)
  | .altR a b, i => reMatch cs a i ++ reMatch cs b i
  | .wb, i => if boundaryAt cs i then [i] else []
  | .eol, i => if i = cs.length then [i] else []

/-- re.finditer scan loop: at each position try to match; on a match of end
e, yield (pos, e) and continue from max e (pos+1); otherwise advance by one.
Fuel bounds the number of scan steps. -/
def finditerAux (cs : List Char) (r : RE) : Nat → Nat → List (Nat × Nat)
  | 0, _ => []
  | fuel + 1, pos =>
    if pos ≤ cs.length then
      match (reMatch cs r pos).head? with
      | some e => (pos, e) :: finditerAux cs r fuel (max e (pos + 1))
      | none => finditerAux cs r fuel (pos + 1)
    else []

/-- All matches of one pattern over the character list, leftmost first. -/
def finditer (r : RE) (cs : List Char) : List (Nat × Nat) :=
  finditerAux cs r (cs.length + 2) 0

/-- Python text[s:e]. -/
def subStr (cs : List Char) (s e : Nat) : String := ⟨(cs.drop s).take (e - s)⟩

/-- The (start, end, matched text) spans one pattern contributes to
detect_highlights. -/
def patternSpans (r : RE) (text : String) : List (Nat × Nat × String) :=
  (finditer r text.toList).map (fun m => (m.1, m.2, subStr text.toList m.1 m.2))

/-- Pattern 1 of detect_highlights: number, optional percent sign, optional
space, then a discount keyword or percent sign, inside word boundaries. -/
def pat1 : RE :=
  seqs [RE.wb, RE.digitsP, optR (RE.lit "%"), RE.wsStar,
    litsCI ["скидка", "discount", "off", "%"], RE.wb]

/-- Pattern 2: discount keyword, optional space, number, optional percent. -/
def pat2 : RE :=
  seqs [RE.wb, litsCI ["скидка", "discount", "off"], RE.wsStar, RE.digitsP,
    optR (RE.lit "%"), RE.wb]

/-- Pattern 3: number, optional space, the rouble word with optional final
letter. -/
def pat3 : RE :=
  seqs [RE.wb, RE.digitsP, RE.wsStar, RE.lit "ру", optR (RE.lit "б"), RE.wb]

/-- Pattern 4: number, optional space, then a currency sign; the dollar sign
of the source pattern is a regex end anchor, modelled as such. -/
def pat4 : RE :=
  seqs [RE.wb, RE.digitsP, RE.wsStar, alts [RE.lit "₽", RE.lit "₸", RE.eol, RE.lit "€"], RE.wb]

/-- Pattern 5: the free keywords. -/
def pat5 : RE := seqs [RE.wb, litsCI ["бесплатно", "free"], RE.wb]

/-- Pattern 6: the gift keywords. -/
def pat6 : RE := seqs [RE.wb, litsCI ["подарок", "gift"], RE.wb]

/-- Pattern 7: the sale keywords. -/
def pat7 : RE := seqs [RE.wb, litsCI ["акция", "sale"], RE.wb]

/-- Pattern 8: a bare percentage. -/
def pat8 : RE := seqs [RE.wb, RE.digitsP, RE.lit "%", RE.wb]

/-- Optional fractional part of the currency patterns. -/
def fracOpt : RE := optR (seqs [RE.lit ".", RE.digitsP])

/-- ISO currency codes of the currency patterns. -/
def isoCodes : List String :=
  ["AED", "ZMW", "OMR", "GHS", "XAF", "XOF", "CDF", "NAD", "ZAR", "PKR",
   "MZN", "BOB", "GTQ", "PEN", "AZN", "AOA", "ETB", "COP", "MAD", "NPR"]

/-- Currency names of the currency patterns. -/
def currencyNames : List String :=
  ["dirham", "kwacha", "rial", "cedi", "franc", "shilling", "dollar",
   "quetzal", "sol", "manat", "kwanza", "birr", "peso", "dirham", "rupee"]

/-- Currency pattern 1: amount then ISO code. -/
def pat9 : RE := seqs [RE.wb, RE.digitsP, fracOpt, RE.wsStar, litsCI isoCodes, RE.wb]

/-- Currency pattern 2: ISO code then amount. -/
def pat10 : RE := seqs [RE.wb, litsCI isoCodes, RE.wsStar, RE.digitsP, fracOpt, RE.wb]

/-- Currency pattern 3: amount then currency name. -/
def pat11 : RE := seqs [RE.wb, RE.digitsP, fracOpt, RE.wsStar, litsCI currencyNames, RE.wb]

/-- Currency pattern 4: currency name then amount. -/
def pat12 : RE := seqs [RE.wb, litsCI currencyNames, RE.wsStar, RE.digitsP, fracOpt, RE.wb]

/-- The combined pattern list of detect_highlights, in source order. -/
def allPatterns : List RE :=
  [pat1, pat2, pat3, pat4, pat5, pat6, pat7, pat8, pat9, pat10, pat11, pat12]

/-- main.py detect_highlights (lines 312-349): for every pattern in order,
yield every finditer match as a (start, end, matched text) span. -/
def detect_highlights (text : String) : List (Nat × Nat × String) :=
  allPatterns.flatMap (fun p => patternSpans p text)

/-- Sorted-and-disjoint order between two spans: the first starts no later,
and ends before the second starts. -/
def spanOrdered (a b : Nat × Nat × String) : Prop := a.1 ≤ b.1 ∧ a.2.1 ≤ b.1

instance : DecidableRel spanOrdered := fun a b => by
  unfold spanOrdered; infer_instance

/-! ### The compositor (main.py compose, lines 665-1158)

The drawing backend is modelled as an event trace: each draw_text /
draw_text_with_highlights call becomes a TextOp carrying the line and its
pixel position, and the overlay alpha-composite becomes an overlay event.
Fonts expose the metrics the code queries (ascent, descent, size, and the
textbbox width/height of a string); the configuration catalogs
(resolve_style, LAYOUTS) and the file system are collaborator functions in
an environment record. -/

/-- A loaded font handle: ascent/descent from getmetrics(), the point size,
and the width (textbbox[2]) and height (textbbox[3] / getbbox[3]) measures
of a string. -/
structure BFont where
  ascent : Int
  descent : Int
  size : Int
  width : String → Int
  bboxH : String → Int

/-- A resolved block style: optional alignment (st.get("align", "left")),
line-height factor, max_lines (st.get("max_lines", 0)), ellipsis flag
(st.get("ellipsis", False)), and the per-banner left_margin map
(st.get("left_margin", {}).get(banner_key, 150)). -/
structure BStyle where
  align : Option String
  line_height : Int × Nat
  max_lines : Nat
  ellipsis : Bool
  left_margin : String → Option Int

/-- A layout profile: padding, anchor kind, text stack, and the gap table
(layout["gap"]["default"] and layout["gap"]["special"] rows
(prev, next, gap, only_size)). -/
structure BLayout where
  padL : Int
  padR : Int
  padT : Int
  padB : Int
  anchor : String
  text_stack : List String
  gapDefault : Int
  gapSpecial : List (String × String × Int × Option String)

/-- The collaborators of compose: text shaping, the style/layout catalogs
(config.json is data outside the sources, so resolve_style output and
LAYOUTS lookups are parameters), overlay-file existence, and font loading. -/
structure REnv where
  reshape : String → String
  bidi : String → String
  resolve_style : String → String → String → String → BStyle × BFont
  layouts : String → Option BLayout
  defaultLayout : BLayout
  overlayExists : String → Bool
  loadFont : String → Int → BFont
  arabicFont : Int → BFont

/-- Python floor division a // b. -/
def pyFloorDiv (a b : Int) : Int := Int.fdiv a b

/-- Ceiling of x / d over the integers, computable by floor division. -/
def ceilDiv (x : Int) (d : Nat) : Int := -((-x).fdiv (d : Int))

/-- main.py line_height_px: int(math.ceil((ascent + descent) * lh_factor)),
with the float factor modelled as the fraction lh.1 / lh.2. -/
def line_height_px (font : BFont) (lh : Int × Nat) : Int :=
  ceilDiv ((font.ascent + font.descent) * lh.1) lh.2

/-- main.py get_gap (lines 449-455): first matching special row wins, else
the default gap. -/
def get_gap (layout : BLayout) (prev_key next_key banner_key : String) : Int :=
  match layout.gapSpecial.find?
      (fun s => s.1 == prev_key && s.2.1 == next_key &&
        (s.2.2.2 == none || s.2.2.2 == some banner_key)) with
  | some s => s.2.2.1
  | none => layout.gapDefault

/-- main.py get_arabic_right_margin (lines 457-465). -/
def get_arabic_right_margin (banner_key : String) : Int :=
  if banner_key = "1200x1200" then 64
  else if banner_key = "1200x1500" then 64
  else if banner_key = "1200x628" then 40
  else if banner_key = "1080x1920" then 120
  else 64

/-- main.py DOWNLOAD_APP_PHRASES (lines 35-43). -/
def DOWNLOAD_APP_PHRASES : List (String × String) :=
  [("English", "Download the app"), ("French", "Téléchargez l\x27application"),
   ("Portuguese", "Baixe o aplicativo"), ("Arabic", "حمّل التطبيق"),
   ("Spanish", "Descarga la aplicación"), ("Azerbaijani", "Tətbiqi yüklə"),
   ("Urdu", "App download karein")]

/-- DOWNLOAD_APP_PHRASES.get(language, DOWNLOAD_APP_PHRASES["English"]). -/
def downloadPhrase (language : String) : String :=
  ((DOWNLOAD_APP_PHRASES.find? (fun p => p.1 == language)).map Prod.snd).getD
    "Download the app"

/-- Python " ".join(lines). -/
def joinSpace : List String → String
  | [] => ""
  | [s] => s
  | s :: rest => s ++ " " ++ joinSpace rest

/-- Alignment resolution of the per-block draw loops (main.py 998-1005, and
identically 906-913): start from st.get("align", "left"), force right for the
Arabic language, then force right when the joined lines are RTL text and the
anchor is top_right or bottom_right. -/
def effectiveAlign (st : BStyle) (language : String) (lines : List String)
    (anchor : String) : String :=
  let a0 := st.align.getD "left"
  let a1 := if language = "Arabic" then "right" else a0
  if is_rtl_text (joinSpace lines) = true ∧ (anchor = "top_right" ∨ anchor = "bottom_right")
  then "right" else a1

/-- One wrapped text block of compose: (lines, st, font, key). -/
structure BlockData where
  lines : List String
  st : BStyle
  font : BFont
  key : String

/-- Height contribution of one block: line_height_px(font, line_height) *
len(lines). -/
def blockH (b : BlockData) : Int :=
  line_height_px b.font b.st.line_height * (b.lines.length : Int)

/-- The measuring loop of compose (main.py 841-847): accumulate block
heights, and for each block with a successor record the resolved gap. -/
def measureGo (layout : BLayout) (banner_key : String) : List BlockData → Int × List Int
  | [] => (0, [])
  | [b] => (blockH b, [])
  | a :: b :: rest =>
    let r := measureGo layout banner_key (b :: rest)
    (blockH a + r.1, get_gap layout a.key b.key banner_key :: r.2)

/-- total_h and gaps as computed by compose (main.py 841-848): the loop
total plus sum(gaps). -/
def measureTotal (layout : BLayout) (banner_key : String) (blocks : List BlockData) :
    Int × List Int :=
  let r := measureGo layout banner_key blocks
  (r.1 + r.2.sum, r.2)

/-- Anchor-origin resolution of compose (main.py 850-888), including the
inline per-(banner, layout) corrections of the bottom_center case. -/
def anchorXY (w h : Int) (layout : BLayout) (max_w total_h : Int)
    (banner_key layout_key : String) : Int × Int :=
  let anchor := layout.anchor
  if anchor = "bottom_left" then (layout.padL, h - layout.padB - total_h)
  else if anchor = "bottom_center" then
    let x := pyFloorDiv (w - max_w) 2
    let y :=
      if banner_key = "1080x1920" then h - 250 - total_h
      else if banner_key = "1200x1500" ∧ (layout_key = "Yango_pro_app" ∨ layout_key = "Yango_app") then
        h - layout.padB - total_h - 200
      else if banner_key = "1200x1200" ∧ (layout_key = "Yango_pro_app" ∨ layout_key = "Yango_app") then
        h - layout.padB - total_h - 170
      else if banner_key = "1200x1200" ∧ (layout_key = "Yango_Red" ∨ layout_key = "Yango_pro_Red") then
        h - layout.padB - total_h - 40
      else if banner_key = "1200x1500" ∧ (layout_key = "Yango_Red" ∨ layout_key = "Yango_pro_Red") then
        h - layout.padB - total_h - 240
      else if banner_key = "1080x1920" ∧ (layout_key = "Yango_Red" ∨ layout_key = "Yango_pro_Red") then
        h - layout.padB - total_h + 170
      else h - layout.padB - total_h
    (x, y)
  else if anchor = "center" then (layout.padL, pyFloorDiv (h - total_h) 2)
  else if anchor = "top_left" then (layout.padL, layout.padT)
  else if anchor = "top_right" then (w - layout.padR - max_w, layout.padT)
  else if anchor = "bottom_right" then (w - layout.padR - max_w, h - layout.padB - total_h)
  else (layout.padL, h - layout.padB - total_h)

/-- One text-draw event: a draw_text_with_highlights call with the line and
its pixel position. -/
structure TextOp where
  text : String
  x : Int
  y : Int
deriving DecidableEq, Repr

/-- A compositing event of compose: an overlay alpha-composite or a text
draw. -/
inductive Op where
  | overlay (path : String)
  | line (t : TextOp)
deriving DecidableEq, Repr

/-- The aligned per-block draw loop of compose (main.py 996-1025, duplicated
at 904-932 for the 1080x1920 main blocks): per line, x from the effective
alignment, y advanced by the line height, then by the indexed gap. -/
def drawStackOps (w x max_w : Int) (banner_key language anchor : String)
    (gaps : List Int) (y0 : Int) (blocks : List BlockData) : List TextOp × Int :=
  blocks.enum.foldl (fun (acc : List TextOp × Int) p =>
    let bd := p.2
    let lh := line_height_px bd.font bd.st.line_height
    let align := effectiveAlign bd.st language bd.lines anchor
    let inner := bd.lines.foldl (fun (a2 : List TextOp × Int) line =>
      let op :=
        if align = "center" then
          let lw := bd.font.width line
          TextOp.mk line (x + pyFloorDiv (max_w - lw) 2) a2.2
        else if align = "right" then
          let lw := bd.font.width line
          if language = "Arabic" then
            TextOp.mk line (w - get_arabic_right_margin banner_key - lw) a2.2
          else TextOp.mk line (x + max_w - lw) a2.2
        else TextOp.mk line x a2.2
      (a2.1 ++ [op], a2.2 + lh)) (acc.1, acc.2)
    (inner.1, if p.1 < gaps.length then inner.2 + gaps.getD p.1 0 else inner.2))
    ([], y0)

/-- The 1200x628 branch of compose (main.py 686-822): top-anchored blocks
(headline, subline), separately positioned disclaimer, and the download-app
phrase for the app layouts. -/
def compose628 (env : REnv) (w h : Int)
    (headline subline disclaimer banner_key layout_key language : String) : List TextOp :=
  let y0 : Int := 40
  let block_x : Int := 40
  let block_width : Int := 540
  let hpart : List TextOp × Int :=
    if headline ≠ "" then
      let sf := env.resolve_style "headline" layout_key banner_key language
      let st := sf.1
      let font := sf.2
      let lines := main_wrap_with_limits env.reshape env.bidi font.width headline
        block_width st.max_lines st.ellipsis
      let line_spacing := pyFloorDiv (font.size * 15) 100
      let n := lines.length
      let r := lines.enum.foldl (fun (acc : List TextOp × Int) p =>
        let lw := font.width p.2
        let lh := font.bboxH p.2
        let draw_x :=
          if language = "Arabic" then w - get_arabic_right_margin banner_key - lw
          else if layout_key = "Yango_pro_app" ∨ layout_key = "Yango_app" then 48
          else block_x + pyFloorDiv (block_width - lw) 2
        (acc.1 ++ [⟨p.2, draw_x, acc.2⟩],
         if p.1 < n - 1 then acc.2 + lh + line_spacing else acc.2 + lh)) ([], y0)
      (r.1, r.2 + 28)
    else ([], y0)
  let spart : List TextOp × Int :=
    if subline ≠ "" then
      let sf := env.resolve_style "subline" layout_key banner_key language
      let st := sf.1
      let font := sf.2
      let subtitle_block_width : Int := 460
      let subtitle_block_x : Int := 80
      let lines := main_wrap_with_limits env.reshape env.bidi font.width subline
        subtitle_block_width st.max_lines st.ellipsis
      let line_spacing := pyFloorDiv (font.size * 20) 100
      let n := lines.length
      let r := lines.enum.foldl (fun (acc : List TextOp × Int) p =>
        let lw := font.width p.2
        let lh := font.bboxH p.2
        let draw_x :=
          if language = "Arabic" then w - get_arabic_right_margin banner_key - lw
          else if layout_key = "Yango_pro_app" ∨ layout_key = "Yango_app" then 48
          else subtitle_block_x + pyFloorDiv (subtitle_block_width - lw) 2
        (acc.1 ++ [⟨p.2, draw_x, acc.2⟩],
         if p.1 < n - 1 then acc.2 + lh + line_spacing else acc.2 + lh)) ([], hpart.2)
      (r.1, r.2 + 28)
    else ([], hpart.2)
  let dpart : List TextOp :=
    if disclaimer ≠ "" then
      let sf := env.resolve_style "disclaimer" layout_key banner_key language
      let st := sf.1
      let font := sf.2
      if layout_key = "Yango_pro_app" ∨ layout_key = "Yango_app" then
        let lines := main_wrap_with_limits env.reshape env.bidi font.width disclaimer
          750 st.max_lines st.ellipsis
        (lines.foldl (fun (acc : List TextOp × Int) line =>
          let lw := font.width line
          let draw_x :=
            if language = "Arabic" then w - get_arabic_right_margin banner_key - lw - 140
            else 200 - 32
          (acc.1 ++ [⟨line, draw_x, acc.2⟩], acc.2 + line_height_px font st.line_height))
          ([], 540 + 5)).1
      else
        let lines := main_wrap_with_limits env.reshape env.bidi font.width disclaimer
          block_width st.max_lines st.ellipsis
        let total_height :=
          (lines.map (fun line => font.bboxH line)).sum + ((lines.length : Int) - 1) * 10
        let bottom_margin : Int := if banner_key = "1080x1920" then 50 else 40
        (lines.foldl (fun (acc : List TextOp × Int) line =>
          let lw := font.width line
          (acc.1 ++ [⟨line, w - 40 - lw, acc.2⟩], acc.2 + line_height_px font st.line_height))
          ([], h - bottom_margin - total_height)).1
    else []
  let dlpart : List TextOp :=
    if layout_key = "Yango_pro_app" ∨ layout_key = "Yango_app" then
      let phrase := downloadPhrase language
      let download_font_size : Int :=
        if banner_key = "1200x1200" then 48
        else if banner_key = "1200x1500" then 48
        else if banner_key = "1200x628" then 40
        else if banner_key = "1080x1920" then 56
        else 64
      let download_font :=
        if language = "Arabic" then env.arabicFont download_font_size
        else env.loadFont "Fonts/YangoGroupHeadline-HeavyArabic.ttf" download_font_size
      let download_x : Int := 200 - 32
      let dy0 := h - 40 - download_font.bboxH phrase - 70 + 18
      let lines :=
        if banner_key = "1200x628" then
          main_wrap_with_limits env.reshape env.bidi download_font.width phrase
            (w - download_x - 40) 2 false
        else main_wrap_with_limits env.reshape env.bidi download_font.width phrase 315 2 false
      (lines.foldl (fun (acc : List TextOp × Int) line =>
        let lw := download_font.width line
        let lh := download_font.bboxH line
        let draw_x :=
          if language = "Arabic" then w - get_arabic_right_margin banner_key - lw - 140
          else download_x
        (acc.1 ++ [⟨line, draw_x, acc.2⟩], acc.2 + lh + 5)) ([], dy0)).1
    else []
  hpart.1 ++ spart.1 ++ dpart ++ dlpart

/-- Block construction of the standard branch (main.py 829-838): for each
stack key with non-blank content, resolve the style and wrap. -/
def buildBlocks (env : REnv) (layout : BLayout) (max_w : Int)
    (headline subline disclaimer banner_key layout_key language : String) : List BlockData :=
  layout.text_stack.filterMap (fun key =>
    let raw :=
      if key = "headline" then headline
      else if key = "subline" then subline
      else if key = "disclaimer" then disclaimer
      else ""
    if pyStrip raw = "" then none
    else
      let sf := env.resolve_style key layout_key banner_key language
      some ⟨main_wrap_with_limits env.reshape env.bidi sf.2.width raw max_w
        sf.1.max_lines sf.1.ellipsis, sf.1, sf.2, key⟩)

/-- The standard branch of compose (main.py 824-1156): build blocks, measure,
resolve the anchor, draw the stack by sub-branch, then the download phrase
and the layout-specific disclaimer re-draws. -/
def composeStd (env : REnv) (w h : Int)
    (headline subline disclaimer banner_key layout_key language : String) : List TextOp :=
  let layout := (env.layouts layout_key).getD env.defaultLayout
  let max_w := w - layout.padL - layout.padR
  let blocks := buildBlocks env layout max_w headline subline disclaimer banner_key
    layout_key language
  let m := measureTotal layout banner_key blocks
  let total_h := m.1
  let gaps := m.2
  let a := anchorXY w h layout max_w total_h banner_key layout_key
  let x := a.1
  let y := a.2
  let stackOps : List TextOp :=
    if banner_key = "1080x1920" then
      let main_blocks := blocks.filter (fun b => b.key ≠ "disclaimer")
      let disclaimer_blocks := blocks.filter (fun b => b.key = "disclaimer")
      let y1 :=
        if layout_key = "Yango_pro_app" ∨ layout_key = "Yango_app" then y - 30
        else if layout_key = "Yango_Red" ∨ layout_key = "Yango_pro_Red" then y + 200
        else y + 50
      let mainOps := (drawStackOps w x max_w banner_key language layout.anchor gaps y1
        main_blocks).1
      let discOps : List TextOp :=
        match disclaimer_blocks.head? with
        | none => []
        | some bd =>
          (bd.lines.foldl (fun (acc : List TextOp × Int) line =>
            let lw := bd.font.width line
            (acc.1 ++ [⟨line, pyFloorDiv (w - lw) 2, acc.2⟩],
             acc.2 + line_height_px bd.font bd.st.line_height)) ([], h - 50)).1
      mainOps ++ discOps
    else if (layout_key = "Yango_pro_app" ∨ layout_key = "Yango_app") ∧
        (banner_key = "1200x1200" ∨ banner_key = "1200x1500" ∨ banner_key = "1200x628") then
      let filtered :=
        if banner_key = "1200x1200" ∨ banner_key = "1200x1500" then
          blocks.filter (fun b => b.key ≠ "disclaimer")
        else blocks
      (filtered.enum.foldl (fun (acc : List TextOp × Int) p =>
        let bd := p.2
        let lh := line_height_px bd.font bd.st.line_height
        let inner := bd.lines.foldl (fun (a2 : List TextOp × Int) line =>
          let op :=
            if language = "Arabic" then
              let lw := bd.font.width line
              TextOp.mk line (w - get_arabic_right_margin banner_key - lw) a2.2
            else TextOp.mk line ((bd.st.left_margin banner_key).getD 150) a2.2
          (a2.1 ++ [op], a2.2 + lh)) (acc.1, acc.2)
        (inner.1, if p.1 < gaps.length then inner.2 + gaps.getD p.1 0 else inner.2))
        ([], y)).1
    else if (layout_key = "Yango_Red" ∨ layout_key = "Yango_pro_Red") ∧
        (banner_key = "1200x1200" ∨ banner_key = "1200x1500") then
      let filtered := blocks.filter (fun b => b.key ≠ "disclaimer")
      (filtered.enum.foldl (fun (acc : List TextOp × Int) p =>
        let bd := p.2
        let lh := line_height_px bd.font bd.st.line_height
        let inner := bd.lines.foldl (fun (a2 : List TextOp × Int) line =>
          let lw := bd.font.width line
          let draw_x :=
            if language = "Arabic" then w - get_arabic_right_margin banner_key - lw
            else pyFloorDiv (w - lw) 2
          (a2.1 ++ [⟨line, draw_x, a2.2⟩], a2.2 + lh)) (acc.1, acc.2)
        (inner.1, if p.1 < gaps.length then inner.2 + gaps.getD p.1 0 else inner.2))
        ([], y)).1
    else (drawStackOps w x max_w banner_key language layout.anchor gaps y blocks).1
  let downloadOps : List TextOp :=
    if layout_key = "Yango_pro_app" ∨ layout_key = "Yango_app" then
      let phrase := downloadPhrase language
      let download_font_size : Int :=
        if banner_key = "1200x1200" then 64
        else if banner_key = "1200x1500" then 64
        else if banner_key = "1200x628" then 48
        else if banner_key = "1080x1920" then 64
        else 64
      let download_font :=
        if language = "Arabic" then env.arabicFont download_font_size
        else env.loadFont "Fonts/YangoGroupHeadline-HeavyArabic.ttf" download_font_size
      let dxy : Int × Int :=
        if banner_key = "1080x1920" then
          (layout.padL + 380, h - layout.padB - download_font.bboxH phrase - 240)
        else if banner_key = "1200x1500" then
          (layout.padL + 120 - 20, h - layout.padB - download_font.bboxH phrase - 110 + 20)
        else if banner_key = "1200x1200" then
          (layout.padL + 120 - 20, h - layout.padB - download_font.bboxH phrase - 110 + 20)
        else (layout.padL, h - layout.padB - download_font.bboxH phrase)
      let lines :=
        if language = "Arabic" ∧ banner_key = "1080x1920" then
          main_wrap_with_limits env.reshape env.bidi download_font.width phrase 260 2 false
        else if banner_key = "1200x1200" ∨ banner_key = "1200x1500" then
          main_wrap_with_limits env.reshape env.bidi download_font.width phrase
            (w - dxy.1 - layout.padR) 2 false
        else main_wrap_with_limits env.reshape env.bidi download_font.width phrase 315 2 false
      (lines.foldl (fun (acc : List TextOp × Int) line =>
        let lw := download_font.width line
        let lh := download_font.bboxH line
        let draw_x :=
          if language = "Arabic" then
            if banner_key = "1200x1200" ∨ banner_key = "1200x1500" then
              w - get_arabic_right_margin banner_key - lw - 180
            else if banner_key = "1200x628" then
              w - get_arabic_right_margin banner_key - lw - 140
            else if banner_key = "1080x1920" then
              w - get_arabic_right_margin banner_key - lw - 180
            else w - get_arabic_right_margin banner_key - lw
          else dxy.1
        (acc.1 ++ [⟨line, draw_x, acc.2⟩], acc.2 + lh + 5)) ([], dxy.2)).1
    else []
  let proDiscOps : List TextOp :=
    if (layout_key = "Yango_pro_app" ∨ layout_key = "Yango_app") ∧ disclaimer ≠ "" then
      let sf := env.resolve_style "disclaimer" layout_key banner_key language
      let st := sf.1
      let font := sf.2
      if banner_key = "1200x1500" then
        let lines := main_wrap_with_limits env.reshape env.bidi font.width disclaimer
          (w - 274 - 274) st.max_lines st.ellipsis
        (lines.foldl (fun (acc : List TextOp × Int) line =>
          let lw := font.width line
          let draw_x :=
            if language = "Arabic" then w - get_arabic_right_margin banner_key - lw - 180
            else 274 - 20
          (acc.1 ++ [⟨line, draw_x, acc.2⟩], acc.2 + line_height_px font st.line_height))
          ([], 1350 + 20)).1
      else if banner_key = "1200x1200" then
        let lines := main_wrap_with_limits env.reshape env.bidi font.width disclaimer
          (w - 270 - 200) st.max_lines st.ellipsis
        (lines.foldl (fun (acc : List TextOp × Int) line =>
          let lw := font.width line
          let draw_x :=
            if language = "Arabic" then w - get_arabic_right_margin banner_key - lw - 180
            else 250
          (acc.1 ++ [⟨line, draw_x, acc.2⟩], acc.2 + line_height_px font st.line_height))
          ([], 1060 + 20)).1
      else []
    else []
  let redDiscOps : List TextOp :=
    if (layout_key = "Yango_Red" ∨ layout_key = "Yango_pro_Red") ∧ disclaimer ≠ "" then
      let sf := env.resolve_style "disclaimer" layout_key banner_key language
      let st := sf.1
      let font := sf.2
      if banner_key = "1200x1200" then
        let lines := main_wrap_with_limits env.reshape env.bidi font.width disclaimer
          700 st.max_lines st.ellipsis
        (lines.foldl (fun (acc : List TextOp × Int) line =>
          let lw := font.width line
          (acc.1 ++ [⟨line, w - 40 - lw, acc.2⟩], acc.2 + line_height_px font st.line_height))
          ([], h - 40)).1
      else if banner_key = "1200x1500" then
        let lines := main_wrap_with_limits env.reshape env.bidi font.width disclaimer
          700 st.max_lines st.ellipsis
        (lines.foldl (fun (acc : List TextOp × Int) line =>
          let lw := font.width line
          (acc.1 ++ [⟨line, w - 80 - lw, acc.2⟩], acc.2 + line_height_px font st.line_height))
          ([], h - 80)).1
      else []
    else []
  stackOps ++ downloadOps ++ proDiscOps ++ redDiscOps

/-- The overlay path convention of compose (main.py 670-674):
Overlay/[AR/]layout/banner.png. -/
def ovPathOf (language layout_key banner_key : String) : String :=
  if language = "Arabic" then "Overlay/AR/" ++ layout_key ++ "/" ++ banner_key ++ ".png"
  else "Overlay/" ++ layout_key ++ "/" ++ banner_key ++ ".png"

/-- The text-drawing part of compose: the 1200x628 special branch or the
standard layout branch (main.py 685-1156). -/
def composeText (env : REnv) (w h : Int)
    (headline subline disclaimer banner_key layout_key language : String) : List TextOp :=
  if banner_key = "1200x628" then
    compose628 env w h headline subline disclaimer banner_key layout_key language
  else composeStd env w h headline subline disclaimer banner_key layout_key language

/-- main.py compose (lines 665-1158) as an event trace.  The overlay is
applied FIRST (lines 668-680, before ImageDraw is even created), and all
text is then drawn on top of it. -/
def compose (env : REnv) (w h : Int)
    (headline subline disclaimer banner_key layout_key : String)
    (apply_overlay : Bool) (language : String) : List Op :=
  (if apply_overlay = true ∧
      env.overlayExists (ovPathOf language layout_key banner_key) = true then
    [Op.overlay (ovPathOf language layout_key banner_key)]
  else [])
  ++ (composeText env w h headline subline disclaimer banner_key layout_key language).map
    Op.line

/-- A render request of the /render endpoint: imageOk abstracts whether the
uploaded bytes decode (Image.open succeeds). -/
structure RenderReq where
  imageOk : Bool
  headline : String
  subline : String
  disclaimer : String
  banner_size : String
  layout_type : String
  apply_overlay : Bool
  language : String
deriving DecidableEq

/-- The observable outcome of /render: HTTP status, error message, and the
saved output raster (as its compose trace), if any. -/
structure RenderResp where
  status : Nat
  errMsg : Option String
  saved : Option (List Op)
deriving DecidableEq

/-- main.py render_image (lines 1559-1603): decode (exceptions become the
500 response of the handler), reject a banner_size missing from the SIZES
catalog with a 400 response before anything is composed or saved, otherwise
compose at the catalog dimensions and save.  The 2890x2890 resize and
process_background_image are pixel-level steps that do not affect the
structure modelled here. -/
def render_image (env : REnv) (sizes : List (String × Int × Int)) (r : RenderReq) :
    RenderResp :=
  if r.imageOk = true then
    match sizes.find? (fun s => s.1 == r.banner_size) with
    | none =>
      { status := 400, errMsg := some ("Unknown banner_size " ++ r.banner_size),
        saved := none }
    | some s =>
      { status := 200, errMsg := none,
        saved := some (compose env s.2.1 s.2.2 r.headline r.subline r.disclaimer
          r.banner_size r.layout_type r.apply_overlay r.language) }
  else { status := 500, errMsg := some "Failed to render image", saved := none }

/-! ### Claim-side predicates and concrete instances -/

/-- Whether an event is an overlay composite. -/
def isOverlayOp : Op → Bool
  | Op.overlay _ => true
  | Op.line _ => false

/-- The ordering claimed for the compositor: all text draws happen before
any overlay composite (the overlay is the last compositing step). -/
def textThenOverlay : List Op → Bool
  | [] => true
  | Op.line _ :: rest => textThenOverlay rest
  | Op.overlay _ :: rest => rest.all isOverlayOp

/-- Claim-side block height: ceil((ascent + descent) * line-height-factor) *
number of lines, with the true mathematical ceiling over the rationals. -/
def specBlockHeight (b : BlockData) : Int :=
  Int.ceil (((b.font.ascent + b.font.descent : Int) : Rat) *
      ((b.st.line_height.1 : Rat) / (b.st.line_height.2 : Rat))) *
    (b.lines.length : Int)

/-- Claim-side gap list: one resolved gap per adjacent pair of blocks. -/
def specGaps (layout : BLayout) (banner_key : String) (blocks : List BlockData) : List Int :=
  (blocks.zip blocks.tail).map (fun p => get_gap layout p.1.key p.2.key banner_key)

/-- The alignment rule exactly as the claim states it: right exactly when
the content is RTL and the anchor is top_right or bottom_right, else the
style alignment. -/
def claimedAlignC8 (st : BStyle) (lines : List String) (anchor : String) : String :=
  if is_rtl_text (joinSpace lines) = true ∧ (anchor = "top_right" ∨ anchor = "bottom_right")
  then "right" else st.align.getD "left"

/-- The amended alignment rule: additionally forced right whenever the
request language is Arabic. -/
def amendedAlignC8 (st : BStyle) (language : String) (lines : List String)
    (anchor : String) : String :=
  if language = "Arabic" ∨
      (is_rtl_text (joinSpace lines) = true ∧ (anchor = "top_right" ∨ anchor = "bottom_right"))
  then "right" else st.align.getD "left"

/-- A character of the Arabic range tested by normalize_text. -/
def inArabicRange (c : Char) : Prop := 0x600 ≤ c.toNat ∧ c.toNat ≤ 0x6FF

instance : DecidablePred inArabicRange := fun c => by
  unfold inArabicRange; infer_instance

/-- Claim-side trigger condition: no character of the string lies in the
Arabic range U+0600..U+06FF. -/
def noArabicRangeChar (s : String) : Prop := ∀ c ∈ s.toList, ¬ inArabicRange c

instance (s : String) : Decidable (noArabicRangeChar s) := by
  unfold noArabicRangeChar
  infer_instance

/-- A concrete font for witnesses: monospace, ascent 8, descent 2. -/
def font0 : BFont :=
  { ascent := 8, descent := 2, size := 20, width := fun s => s.length, bboxH := fun _ => 10 }

/-- A concrete default-alignment style for witnesses. -/
def style0 : BStyle :=
  { align := none, line_height := (1, 1), max_lines := 0, ellipsis := false,
    left_margin := fun _ => none }

/-- A concrete style with explicit left alignment. -/
def styleLeft : BStyle :=
  { align := some "left", line_height := (1, 1), max_lines := 0, ellipsis := false,
    left_margin := fun _ => none }

/-- A concrete bottom_left layout profile for witnesses. -/
def layout0 : BLayout :=
  { padL := 10, padR := 10, padT := 10, padB := 20, anchor := "bottom_left",
    text_stack := ["headline", "subline", "disclaimer"], gapDefault := 24, gapSpecial := [] }

/-- A concrete environment for witnesses: identity shaping, constant style
catalog, no named layouts (so the default is used), and every overlay file
present. -/
def env0 : REnv :=
  { reshape := id, bidi := id, resolve_style := fun _ _ _ _ => (style0, font0),
    layouts := fun _ => none, defaultLayout := layout0,
    overlayExists := fun _ => true, loadFont := fun _ _ => font0,
    arabicFont := fun _ => font0 }

/-- The banner-size catalog as listed by AVAILABLE_SIZES (main.py line 30). -/
def sizesCatalog : List (String × Int × Int) :=
  [("1200x1200", 1200, 1200), ("1200x1500", 1200, 1500), ("1200x628", 1200, 628),
   ("1080x1920", 1080, 1920)]

/-- A concrete valid render request. -/
def req0 : RenderReq :=
  { imageOk := true, headline := "Hello", subline := "", disclaimer := "",
    banner_size := "1200x1200", layout_type := "Yango_photo", apply_overlay := true,
    language := "English" }

/-- A concrete request with a banner size missing from the catalog. -/
def reqBad : RenderReq :=
  { imageOk := true, headline := "Hello", subline := "", disclaimer := "",
    banner_size := "999x999", layout_type := "Yango_photo", apply_overlay := true,
    language := "English" }

/-- A concrete one-line block for witnesses. -/
def block1 : BlockData :=
  { lines := ["Hello"], st := style0, font := font0, key := "headline" }

/-- A concrete two-line block for witnesses. -/
def block2 : BlockData :=
  { lines := ["world", "again"], st := style0, font := font0, key := "subline" }

/-! ## Lemmas and claim theorems -/

theorem wrapStep_eq (tw : String → Int) (mw : Int) (acc : List String × String) (w : String) :
    wrapStep tw mw acc w =
      if tw (pyStrip (acc.2 ++ " " ++ w)) ≤ mw ∨ acc.2 = "" then
        (acc.1, pyStrip (acc.2 ++ " " ++ w))
      else (acc.1 ++ [acc.2], w) := rfl

theorem wrapWords_eq (tw : String → Int) (mw : Int) (words : List String) :
    wrapWords tw mw words =
      if (words.foldl (wrapStep tw mw) ([], "")).2 ≠ "" then
        (words.foldl (wrapStep tw mw) ([], "")).1 ++ [(words.foldl (wrapStep tw mw) ([], "")).2]
      else (words.foldl (wrapStep tw mw) ([], "")).1 := rfl

theorem botWrapStep_eq (tw : String → Int) (mw : Int) (acc : List String × String)
    (w : String) :
    botWrapStep tw mw acc w =
      if tw (acc.2 ++ (if acc.2 ≠ "" then " " else "") ++ w) ≤ mw then
        (acc.1, acc.2 ++ (if acc.2 ≠ "" then " " else "") ++ w)
      else if acc.2 ≠ "" then (acc.1 ++ [acc.2], w)
      else (acc.1, w) := rfl

theorem bot_wrap_text_eq (tw : String → Int) (text : String) (mw : Int) :
    bot_wrap_text tw text mw =
      if ((pySplit text).foldl (botWrapStep tw mw) ([], "")).2 ≠ "" then
        ((pySplit text).foldl (botWrapStep tw mw) ([], "")).1 ++
          [((pySplit text).foldl (botWrapStep tw mw) ([], "")).2]
      else ((pySplit text).foldl (botWrapStep tw mw) ([], "")).1 := rfl

theorem app_wrap_base_eq (reshape bidi : String → String) (tw : String → Int)
    (text : String) (mw : Int) (ml : Nat) :
    app_wrap_base reshape bidi tw text mw ml =
      if ml ≠ 0 ∧ ml < (wrapWords tw mw (pySplit (normalize_text reshape bidi text))).length then
        (wrapWords tw mw (pySplit (normalize_text reshape bidi text))).take ml
      else wrapWords tw mw (pySplit (normalize_text reshape bidi text)) := rfl

theorem app_wrap_with_limits_eq (reshape bidi : String → String) (tw : String → Int)
    (text : String) (mw : Int) (ml : Nat) (e : Bool) :
    app_wrap_with_limits reshape bidi tw text mw ml e =
      if e then applyEllipsis tw mw (app_wrap_base reshape bidi tw text mw ml)
      else app_wrap_base reshape bidi tw text mw ml := rfl

theorem applyEllipsis_eq_none (tw : String → Int) (mw : Int) (lines : List String)
    (hL : lines.getLast? = none) : applyEllipsis tw mw lines = lines := by
  unfold applyEllipsis
  rw [hL]

theorem applyEllipsis_eq_some (tw : String → Int) (mw : Int) (lines : List String)
    (last0 : String) (hL : lines.getLast? = some last0) :
    applyEllipsis tw mw lines =
      if shrinkAuxEll tw mw (shrinkAux tw mw last0.length last0).length
          (shrinkAux tw mw last0.length last0) ≠ last0 then
        lines.dropLast ++ [shrinkAuxEll tw mw (shrinkAux tw mw last0.length last0).length
          (shrinkAux tw mw last0.length last0) ++ ellStr]
      else if mw < tw (shrinkAuxEll tw mw (shrinkAux tw mw last0.length last0).length
          (shrinkAux tw mw last0.length last0)) then
        lines.dropLast ++ [ellStr]
      else lines := by
  unfold applyEllipsis
  rw [hL]

theorem str_eq_empty_of_length {s : String} (h : s.length = 0) : s = "" := by
  cases s with
  | mk data =>
    congr 1
    exact List.length_eq_zero.mp h

theorem dropLastChar_length (s : String) : (dropLastChar s).length = s.length - 1 := by
  cases s with
  | mk data =>
    show data.dropLast.length = data.length - 1
    exact List.length_dropLast data

theorem empty_append_str (s : String) : "" ++ s = s := by
  cases s
  rfl

theorem str_toList_append (a b : String) : (a ++ b).toList = a.toList ++ b.toList := by
  cases a
  cases b
  rfl

theorem str_length_append (a b : String) : (a ++ b).length = a.length + b.length := by
  cases a with
  | mk da =>
    cases b with
    | mk db =>
      show (da ++ db).length = da.length + db.length
      exact List.length_append da db

theorem append_ellStr_ne_empty (s : String) : s ++ ellStr ≠ "" := by
  intro h
  have h2 := congrArg String.length h
  rw [str_length_append] at h2
  have h3 : ellStr.length = 1 := rfl
  have h4 : ("" : String).length = 0 := rfl
  omega

theorem endsWithEll_append (s : String) : endsWithEll (s ++ ellStr) = true := by
  unfold endsWithEll
  rw [show (s ++ ellStr).toList = s.toList ++ ['…'] from str_toList_append s ellStr,
    List.getLast?_concat]
  rfl

/-- Exit property of the line+ellipsis shrink loop: with fuel covering the
string length, the result plus the glyph fits, or the result is empty. -/
theorem shrinkAuxEll_fits (tw : String → Int) (mw : Int) :
    ∀ (fuel : Nat) (s : String), s.length ≤ fuel →
      tw (shrinkAuxEll tw mw fuel s ++ ellStr) ≤ mw ∨ shrinkAuxEll tw mw fuel s = "" := by
  intro fuel
  induction fuel with
  | zero =>
    intro s hs
    right
    exact str_eq_empty_of_length (Nat.le_zero.mp hs)
  | succ n ih =>
    intro s hs
    rw [shrinkAuxEll]
    split
    · next hcond =>
      apply ih
      rw [dropLastChar_length]
      omega
    · next hcond =>
      rcases not_and_or.mp hcond with hfit | hlen
      · exact Or.inl (le_of_not_lt hfit)
      · right
        exact str_eq_empty_of_length (by omega)

/-- Every line committed by the greedy wrap fold is nonempty: the current
line is only committed from the branch where it is known nonempty. -/
theorem wrapFold_ne_empty (tw : String → Int) (mw : Int) :
    ∀ (words : List String) (acc : List String × String),
      (∀ l ∈ acc.1, l ≠ "") → ∀ l ∈ (words.foldl (wrapStep tw mw) acc).1, l ≠ "" := by
  intro words
  induction words with
  | nil => intro acc h; exact h
  | cons w ws ih =>
    intro acc hacc
    rw [List.foldl_cons]
    apply ih
    rw [wrapStep_eq]
    split
    · exact hacc
    · next hcond =>
      intro l hl
      rcases List.mem_append.mp hl with h1 | h2
      · exact hacc l h1
      · have he : l = acc.2 := by simpa using h2
        subst he
        exact fun he2 => hcond (Or.inr he2)

theorem wrapWords_ne_empty (tw : String → Int) (mw : Int) (words : List String) :
    ∀ l ∈ wrapWords tw mw words, l ≠ "" := by
  intro l hl
  rw [wrapWords_eq] at hl
  split at hl
  · next hr =>
    rcases List.mem_append.mp hl with h1 | h2
    · exact wrapFold_ne_empty tw mw words ([], "") (by simp) l h1
    · have he : l = (words.foldl (wrapStep tw mw) ([], "")).2 := by simpa using h2
      rw [he]
      exact hr
  · exact wrapFold_ne_empty tw mw words ([], "") (by simp) l hl

theorem botFold_ne_empty (tw : String → Int) (mw : Int) :
    ∀ (words : List String) (acc : List String × String),
      (∀ l ∈ acc.1, l ≠ "") → ∀ l ∈ (words.foldl (botWrapStep tw mw) acc).1, l ≠ "" := by
  intro words
  induction words with
  | nil => intro acc h; exact h
  | cons w ws ih =>
    intro acc hacc
    rw [List.foldl_cons]
    apply ih
    intro l hl
    rw [botWrapStep_eq] at hl
    set sep := (if acc.2 ≠ "" then " " else "") with hsep
    split at hl
    · exact hacc l hl
    · split at hl
      · next hcur =>
        rcases List.mem_append.mp hl with h1 | h2
        · exact hacc l h1
        · have he : l = acc.2 := by simpa using h2
          rw [he]
          exact hcur
      · exact hacc l hl

theorem bot_wrap_ne_empty (tw : String → Int) (text : String) (mw : Int) :
    ∀ l ∈ bot_wrap_text tw text mw, l ≠ "" := by
  intro l hl
  rw [bot_wrap_text_eq] at hl
  split at hl
  · next hr =>
    rcases List.mem_append.mp hl with h1 | h2
    · exact botFold_ne_empty tw mw (pySplit text) ([], "") (by simp) l h1
    · have he : l = ((pySplit text).foldl (botWrapStep tw mw) ([], "")).2 := by simpa using h2
      rw [he]
      exact hr
  · exact botFold_ne_empty tw mw (pySplit text) ([], "") (by simp) l hl

theorem app_wrap_base_ne_empty (reshape bidi : String → String) (tw : String → Int)
    (text : String) (mw : Int) (ml : Nat) :
    ∀ l ∈ app_wrap_base reshape bidi tw text mw ml, l ≠ "" := by
  intro l hl
  rw [app_wrap_base_eq] at hl
  split at hl
  · exact wrapWords_ne_empty tw mw _ l (List.mem_of_mem_take hl)
  · exact wrapWords_ne_empty tw mw _ l hl

theorem applyEllipsis_ne_empty (tw : String → Int) (mw : Int) (lines : List String)
    (h : ∀ l ∈ lines, l ≠ "") : ∀ l ∈ applyEllipsis tw mw lines, l ≠ "" := by
  intro l hl
  cases hL : lines.getLast? with
  | none =>
    rw [applyEllipsis_eq_none tw mw lines hL] at hl
    exact h l hl
  | some last0 =>
    rw [applyEllipsis_eq_some tw mw lines last0 hL] at hl
    split at hl
    · rcases List.mem_append.mp hl with h1 | h2
      · exact h l (List.dropLast_subset lines h1)
      · rw [List.mem_singleton.mp h2]
        exact append_ellStr_ne_empty _
    · split at hl
      · rcases List.mem_append.mp hl with h1 | h2
        · exact h l (List.dropLast_subset lines h1)
        · have he : l = ellStr := by simpa using h2
          rw [he]
          decide
      · exact h l hl

theorem isPySpace_toNat {c : Char} (h : isPySpace c = true) : c.toNat < 0x600 := by
  simp only [isPySpace, Bool.or_eq_true, beq_iff_eq] at h
  rcases h with ((((h | h) | h) | h) | h) | h <;> subst h <;> decide

theorem hasArabicChar_of_allSpace {s : String} (h : isAllSpace s = true) :
    hasArabicChar s = false := by
  unfold isAllSpace at h
  unfold hasArabicChar
  rw [List.any_eq_false]
  intro c hc
  have hlt := isPySpace_toNat (List.all_eq_true.mp h c hc)
  simp
  omega

theorem normalize_text_no_arabic (reshape bidi : String → String) {text : String}
    (h : hasArabicChar text = false) : normalize_text reshape bidi text = text := by
  unfold normalize_text
  rw [h]
  rfl

theorem pySplitAux_all_space :
    ∀ cs : List Char, (∀ c ∈ cs, isPySpace c = true) → pySplitAux cs [] = [] := by
  intro cs
  induction cs with
  | nil => intro _; rfl
  | cons c cs ih =>
    intro h
    rw [pySplitAux]
    rw [if_pos (h c (List.mem_cons_self c cs))]
    rw [if_pos rfl]
    exact ih fun x hx => h x (List.mem_cons_of_mem _ hx)

theorem pySplit_of_allSpace {s : String} (h : isAllSpace s = true) : pySplit s = [] := by
  unfold pySplit
  rw [pySplitAux_all_space s.toList (fun c hc => List.all_eq_true.mp h c hc)]
  rfl

theorem wrapWords_nil (tw : String → Int) (mw : Int) : wrapWords tw mw [] = [] := rfl

theorem main_wrap_of_allSpace (reshape bidi : String → String) (tw : String → Int)
    {text : String} (h : isAllSpace text = true) (mw : Int) (ml : Nat) (e : Bool) :
    main_wrap_with_limits reshape bidi tw text mw ml e = [] := by
  unfold main_wrap_with_limits
  rw [normalize_text_no_arabic reshape bidi (hasArabicChar_of_allSpace h),
    pySplit_of_allSpace h, wrapWords_nil]

theorem app_wrap_base_of_allSpace (reshape bidi : String → String) (tw : String → Int)
    {text : String} (h : isAllSpace text = true) (mw : Int) (ml : Nat) :
    app_wrap_base reshape bidi tw text mw ml = [] := by
  rw [app_wrap_base_eq]
  rw [normalize_text_no_arabic reshape bidi (hasArabicChar_of_allSpace h),
    pySplit_of_allSpace h, wrapWords_nil]
  simp

theorem app_wrap_of_allSpace (reshape bidi : String → String) (tw : String → Int)
    {text : String} (h : isAllSpace text = true) (mw : Int) (ml : Nat) (e : Bool) :
    app_wrap_with_limits reshape bidi tw text mw ml e = [] := by
  rw [app_wrap_with_limits_eq]
  rw [app_wrap_base_of_allSpace reshape bidi tw h mw ml]
  cases e <;> rfl

theorem bot_wrap_of_allSpace (tw : String → Int) {text : String}
    (h : isAllSpace text = true) (mw : Int) : bot_wrap_text tw text mw = [] := by
  rw [bot_wrap_text_eq]
  rw [pySplit_of_allSpace h]
  rfl

/-- C1 (code_bug evidence): main.py wrap_with_limits returns early at line
373, so with a monospace font of one pixel per character, text "aaa bbb",
max width 5 and max_lines 1 it returns both wrapped lines instead of
truncating to one; the truncation code at lines 375-377 is unreachable. -/
theorem main_wrap_ignores_max_lines :
    main_wrap_with_limits id id lenW "aaa bbb" 5 1 false = ["aaa", "bbb"] ∧
      ¬ (main_wrap_with_limits id id lenW "aaa bbb" 5 1 false).length ≤ 1 := by
  decide

/-- C2 (counterexample): with the ellipsis flag set, one line produced, and
the glyph fitting (width 1 of 10), app.py wrap_with_limits returns the line
"hi" unchanged, which does not end with the ellipsis glyph: the two shrink
loops do not fire for a line that already fits, and then no glyph is
appended. -/
theorem app_wrap_ellipsis_not_always_appended :
    app_wrap_with_limits id id lenW "hi" 10 0 true = ["hi"] ∧
      lenW ellStr ≤ 10 ∧ endsWithEll "hi" = false := by
  decide

/-- C2 (amended): if the ellipsis flag is set and the glyph alone fits in
max width, then any last line returned by app.py wrap_with_limits fits in
max width, and it either ends with the ellipsis glyph or is the unchanged
last line of the pre-ellipsis wrap-and-truncate stage (which itself fits). -/
theorem app_wrap_ellipsis_last_line (reshape bidi : String → String) (tw : String → Int)
    (text : String) (max_width : Int) (max_lines : Nat) (l : String)
    (hlast : (app_wrap_with_limits reshape bidi tw text max_width max_lines true).getLast?
      = some l)
    (hell : tw ellStr ≤ max_width) :
    tw l ≤ max_width ∧
      (endsWithEll l = true ∨
        (app_wrap_base reshape bidi tw text max_width max_lines).getLast? = some l) := by
  rw [show app_wrap_with_limits reshape bidi tw text max_width max_lines true =
    applyEllipsis tw max_width (app_wrap_base reshape bidi tw text max_width max_lines)
    from rfl] at hlast
  cases hL : (app_wrap_base reshape bidi tw text max_width max_lines).getLast? with
  | none =>
    rw [applyEllipsis_eq_none tw max_width _ hL, hL] at hlast
    exact absurd hlast (by simp)
  | some last0 =>
    rw [applyEllipsis_eq_some tw max_width _ last0 hL] at hlast
    split at hlast
    · next h12 =>
      rw [List.getLast?_concat] at hlast
      have hl : l = shrinkAuxEll tw max_width
          (shrinkAux tw max_width last0.length last0).length
          (shrinkAux tw max_width last0.length last0) ++ ellStr :=
        (Option.some_injective _ hlast).symm
      constructor
      · rcases shrinkAuxEll_fits tw max_width
            (shrinkAux tw max_width last0.length last0).length
            (shrinkAux tw max_width last0.length last0) (le_refl _) with hfit | hempty
        · rw [hl]
          exact hfit
        · rw [hl, hempty, empty_append_str]
          exact hell
      · left
        rw [hl]
        exact endsWithEll_append _
    · split at hlast
      · next hover =>
        rw [List.getLast?_concat] at hlast
        have hl : l = ellStr := (Option.some_injective _ hlast).symm
        rw [hl]
        exact ⟨hell, Or.inl (by decide)⟩
      · next h12 hover =>
        rw [hL] at hlast
        have hl : l = last0 := (Option.some_injective _ hlast).symm
        have h2 : shrinkAuxEll tw max_width
            (shrinkAux tw max_width last0.length last0).length
            (shrinkAux tw max_width last0.length last0) = last0 := not_ne_iff.mp h12
        refine ⟨?_, Or.inr (congrArg Option.some hl.symm)⟩
        rw [hl, ← h2]
        exact le_of_not_lt hover

/-- Witness for the amended C2 theorem at text "abcdefgh", monospace width,
max width 3: the returned last line is "ab…". -/
theorem app_wrap_ellipsis_last_line_witness :
    lenW "ab…" ≤ 3 ∧
      (endsWithEll "ab…" = true ∨
        (app_wrap_base id id lenW "abcdefgh" 3 0).getLast? = some "ab…") :=
  app_wrap_ellipsis_last_line id id lenW "abcdefgh" 3 0 "ab…" (by decide) (by decide)

/-- C10: every line returned by app.py wrap_with_limits, main.py
wrap_with_limits and bot.py wrap_text is a nonempty string, and an empty or
whitespace-only input yields the empty line list for all three. -/
theorem wrap_lines_nonempty_and_blank_empty (reshape bidi : String → String)
    (tw : String → Int) (text : String) (max_width : Int) (max_lines : Nat)
    (ellipsis : Bool) (l : String) :
    (l ∈ app_wrap_with_limits reshape bidi tw text max_width max_lines ellipsis → l ≠ "") ∧
    (l ∈ main_wrap_with_limits reshape bidi tw text max_width max_lines ellipsis → l ≠ "") ∧
    (l ∈ bot_wrap_text tw text max_width → l ≠ "") ∧
    (isAllSpace text = true →
      app_wrap_with_limits reshape bidi tw text max_width max_lines ellipsis = [] ∧
      main_wrap_with_limits reshape bidi tw text max_width max_lines ellipsis = [] ∧
      bot_wrap_text tw text max_width = []) := by
  refine ⟨?_, ?_, ?_, ?_⟩
  · intro hl
    rw [app_wrap_with_limits_eq] at hl
    split at hl
    · exact applyEllipsis_ne_empty tw max_width _
        (app_wrap_base_ne_empty reshape bidi tw text max_width max_lines) l hl
    · exact app_wrap_base_ne_empty reshape bidi tw text max_width max_lines l hl
  · intro hl
    exact wrapWords_ne_empty tw max_width _ l hl
  · intro hl
    exact bot_wrap_ne_empty tw text max_width l hl
  · intro h
    exact ⟨app_wrap_of_allSpace reshape bidi tw h max_width max_lines ellipsis,
      main_wrap_of_allSpace reshape bidi tw h max_width max_lines ellipsis,
      bot_wrap_of_allSpace tw h max_width⟩

/-- Witness for C10: a produced line "aaa" is nonempty, and the blank input
"  " wraps to the empty list in all three wrappers. -/
theorem wrap_lines_nonempty_and_blank_empty_witness :
    ("aaa" : String) ≠ "" ∧
      (app_wrap_with_limits id id lenW "  " 5 0 false = [] ∧
        main_wrap_with_limits id id lenW "  " 5 0 false = [] ∧
        bot_wrap_text lenW "  " 5 = []) :=
  ⟨(wrap_lines_nonempty_and_blank_empty id id lenW "aaa bbb" 5 0 false "aaa").1 (by decide),
   (wrap_lines_nonempty_and_blank_empty id id lenW "  " 5 0 false "x").2.2.2 (by decide)⟩

/-- Every end position a fragment reports is at or after its start. -/
theorem reMatch_le (cs : List Char) :
    ∀ (r : RE) (i e : Nat), e ∈ reMatch cs r i → i ≤ e := by
  intro r
  induction r with
  | epsR =>
    intro i e h
    simp only [reMatch, List.mem_singleton] at h
    omega
  | failR =>
    intro i e h
    simp only [reMatch, List.not_mem_nil] at h
  | lit s =>
    intro i e h
    simp only [reMatch] at h
    split at h
    · simp only [List.mem_singleton] at h
      omega
    · simp at h
  | digitsP =>
    intro i e h
    simp only [reMatch] at h
    split at h
    · simp at h
    · rcases List.mem_map.mp h with ⟨k, hk, rfl⟩
      have hk2 := List.mem_range.mp hk
      omega
  | wsStar =>
    intro i e h
    simp only [reMatch] at h
    rcases List.mem_map.mp h with ⟨k, hk, rfl⟩
    have hk2 := List.mem_range.mp hk
    omega
  | seqR a b iha ihb =>
    intro i e h
    simp only [reMatch] at h
    rcases List.mem_flatMap.mp h with ⟨j, hj, he⟩
    exact le_trans (iha i j hj) (ihb j e he)
  | altR a b iha ihb =>
    intro i e h
    simp only [reMatch] at h
    rcases List.mem_append.mp h with h | h
    · exact iha i e h
    · exact ihb i e h
  | wb =>
    intro i e h
    simp only [reMatch] at h
    split at h
    · simp only [List.mem_singleton] at h
      omega
    · simp at h
  | eol =>
    intro i e h
    simp only [reMatch] at h
    split at h
    · simp only [List.mem_singleton] at h
      omega
    · simp at h

/-- Every span emitted by the scan loop starts at or after the scan
position. -/
theorem finditerAux_start_le (cs : List Char) (r : RE) :
    ∀ (fuel pos : Nat), ∀ m ∈ finditerAux cs r fuel pos, pos ≤ m.1 := by
  intro fuel
  induction fuel with
  | zero =>
    intro pos m h
    simp [finditerAux] at h
  | succ n ih =>
    intro pos m h
    rw [finditerAux] at h
    split at h
    · cases hh : (reMatch cs r pos).head? with
      | some e =>
        rw [hh] at h
        rcases List.mem_cons.mp h with he | h2
        · rw [he]
        · have h3 := ih (max e (pos + 1)) m h2
          have h4 := Nat.le_max_right e (pos + 1)
          omega
      | none =>
        rw [hh] at h
        have h3 := ih (pos + 1) m h
        omega
    · simp at h

/-- The spans of one pattern are emitted left to right and never overlap:
after a match ending at e, scanning resumes at max e (pos+1). -/
theorem finditerAux_pairwise (cs : List Char) (r : RE) :
    ∀ fuel pos : Nat,
      (finditerAux cs r fuel pos).Pairwise (fun a b => a.1 ≤ b.1 ∧ a.2 ≤ b.1) := by
  intro fuel
  induction fuel with
  | zero =>
    intro pos
    simp [finditerAux]
  | succ n ih =>
    intro pos
    rw [finditerAux]
    split
    · cases hh : (reMatch cs r pos).head? with
      | some e =>
        refine List.Pairwise.cons ?_ (ih (max e (pos + 1)))
        intro m hm
        have h1 := finditerAux_start_le cs r n (max e (pos + 1)) m hm
        have h2 := Nat.le_max_left e (pos + 1)
        have h3 := Nat.le_max_right e (pos + 1)
        exact ⟨by omega, by omega⟩
      | none => exact ih (pos + 1)
    · exact List.Pairwise.nil

/-- C3 (amended): detect_highlights concatenates, in pattern priority order,
the finditer spans of each pattern, and the spans contributed by any single
pattern are sorted ascending by start and pairwise non-overlapping.  (Spans
of different patterns can overlap and the combined list need not be sorted:
see the counterexample.) -/
theorem detect_highlights_per_pattern (r : RE) (text : String) :
    detect_highlights text = allPatterns.flatMap (fun p => patternSpans p text) ∧
      (patternSpans r text).Pairwise spanOrdered := by
  refine ⟨rfl, ?_⟩
  unfold patternSpans finditer
  rw [List.pairwise_map]
  exact (finditerAux_pairwise text.toList r (text.toList.length + 2) 0).imp fun h => h

/-- C3 (counterexample): on "discount 50 off", pattern 1 matches "50 off" at
(9, 15) and is emitted before pattern 2's "discount 50" at (0, 11); the
combined span list is neither sorted by start nor non-overlapping, and the
range 9..11 claimed by the earlier pattern is re-matched by the later one. -/
theorem detect_highlights_overlap_cex :
    detect_highlights "discount 50 off" = [(9, 15, "50 off"), (0, 11, "discount 50")] ∧
      ¬ (detect_highlights "discount 50 off").Pairwise spanOrdered := by
  constructor
  · decide
  · intro hp
    rw [show detect_highlights "discount 50 off" =
      [(9, 15, "50 off"), (0, 11, "discount 50")] from by decide] at hp
    have h1 := (List.pairwise_cons.mp hp).1 (0, 11, "discount 50") (by simp)
    exact absurd h1 (by decide)

/-- C4 (counterexample): with every overlay file present, compose emits the
overlay composite first and draws the headline after it, so the overlay is
not applied over already-drawn text as the claim states. -/
theorem compose_overlay_before_text_cex :
    compose env0 100 100 "Hi" "" "" "1200x1200" "Yango_photo" true "English" =
      [Op.overlay "Overlay/Yango_photo/1200x1200.png", Op.line ⟨"Hi", 10, 70⟩] ∧
      textThenOverlay
        (compose env0 100 100 "Hi" "" "" "1200x1200" "Yango_photo" true "English")
        = false := by
  decide

/-- C4 (amended): when the overlay flag is enabled and the overlay file
exists, compose alpha-composites the overlay FIRST (its first event) and
every later event is a text draw on top of it. -/
theorem compose_overlay_first (env : REnv) (w h : Int)
    (headline subline disclaimer banner_key layout_key language : String)
    (hov : env.overlayExists (ovPathOf language layout_key banner_key) = true) :
    (compose env w h headline subline disclaimer banner_key layout_key true language).head?
        = some (Op.overlay (ovPathOf language layout_key banner_key)) ∧
      ∀ op ∈ (compose env w h headline subline disclaimer banner_key layout_key true
        language).tail, isOverlayOp op = false := by
  unfold compose
  rw [if_pos ⟨rfl, hov⟩]
  constructor
  · rfl
  · intro op hop
    rw [show (([Op.overlay (ovPathOf language layout_key banner_key)] : List Op) ++
      (composeText env w h headline subline disclaimer banner_key layout_key language).map
        Op.line).tail =
      (composeText env w h headline subline disclaimer banner_key layout_key language).map
        Op.line from rfl] at hop
    rcases List.mem_map.mp hop with ⟨t, _, rfl⟩
    rfl

/-- Witness for the amended C4 theorem at a concrete environment. -/
theorem compose_overlay_first_witness :
    (compose env0 100 100 "Hi" "" "" "1200x1200" "Yango_photo" true "English").head?
        = some (Op.overlay (ovPathOf "English" "Yango_photo" "1200x1200")) ∧
      ∀ op ∈ (compose env0 100 100 "Hi" "" "" "1200x1200" "Yango_photo" true
        "English").tail, isOverlayOp op = false :=
  compose_overlay_first env0 100 100 "Hi" "" "" "1200x1200" "Yango_photo" "English" rfl

/-- C5: rendering is a pure function of the request and the immutable
catalogs/collaborators: two invocations on equal inputs produce equal
responses, hence byte-identical output rasters. -/
theorem render_image_deterministic (env : REnv) (sizes : List (String × Int × Int))
    (r1 r2 : RenderReq) (h : r1 = r2) :
    render_image env sizes r1 = render_image env sizes r2 := by
  rw [h]

/-- Witness for C5 at a concrete environment and request. -/
theorem render_image_deterministic_witness :
    render_image env0 sizesCatalog req0 = render_image env0 sizesCatalog req0 :=
  render_image_deterministic env0 sizesCatalog req0 req0 rfl

/-- C6: a decodable request whose banner_size is missing from the catalog
gets the 400 response with the descriptive message, and no output image is
saved. -/
theorem render_image_unknown_banner (env : REnv) (sizes : List (String × Int × Int))
    (r : RenderReq) (h1 : r.imageOk = true)
    (h2 : sizes.find? (fun s => s.1 == r.banner_size) = none) :
    render_image env sizes r =
      { status := 400, errMsg := some ("Unknown banner_size " ++ r.banner_size),
        saved := none } := by
  unfold render_image
  rw [h1, if_pos rfl, h2]

/-- Witness for C6: banner size "999x999" against the four-size catalog. -/
theorem render_image_unknown_banner_witness :
    render_image env0 sizesCatalog reqBad =
      { status := 400, errMsg := some ("Unknown banner_size " ++ reqBad.banner_size),
        saved := none } :=
  render_image_unknown_banner env0 sizesCatalog reqBad rfl (by decide)

theorem ceilDiv_eq_ceil (x : Int) (d : Nat) (hd : 0 < d) :
    ceilDiv x d = Int.ceil ((x : Rat) / (d : Rat)) := by
  rw [ceilDiv, Int.fdiv_eq_ediv _ (by positivity)]
  rw [show ((x : Rat) / (d : Rat)) = -(((-x : Int) : Rat) / ((d : Nat) : Rat)) by
    push_cast
    ring]
  rw [Int.ceil_neg, Rat.floor_intCast_div_natCast]

theorem blockH_eq_spec (b : BlockData) (hd : 0 < b.st.line_height.2) :
    blockH b = specBlockHeight b := by
  unfold blockH specBlockHeight line_height_px
  rw [ceilDiv_eq_ceil _ _ hd]
  congr 2
  push_cast
  ring

theorem measureGo_spec (layout : BLayout) (banner_key : String) :
    ∀ blocks : List BlockData,
      (measureGo layout banner_key blocks).1 = (blocks.map blockH).sum ∧
        (measureGo layout banner_key blocks).2 = specGaps layout banner_key blocks := by
  intro blocks
  induction blocks with
  | nil => exact ⟨rfl, rfl⟩
  | cons a rest ih =>
    cases rest with
    | nil =>
      constructor
      · simp [measureGo]
      · rfl
    | cons b rest2 =>
      constructor
      · simp only [measureGo, ih.1, List.map_cons, List.sum_cons]
      · simp only [measureGo, ih.2, specGaps, List.tail_cons, List.zip_cons_cons,
          List.map_cons]

/-- C7: compose's measured total stack height equals the sum of per-block
heights (ceil((ascent+descent) * line-height-factor) * line count) plus the
sum of the resolved inter-block gaps, and for a bottom-anchored layout the
anchor origin satisfies y + total = canvas height - bottom padding. -/
theorem measure_total_and_bottom_anchor (layout : BLayout) (banner_key layout_key : String)
    (blocks : List BlockData) (w h max_w : Int)
    (hanchor : layout.anchor = "bottom_left" ∨ layout.anchor = "bottom_right")
    (hden : ∀ b ∈ blocks, 0 < b.st.line_height.2) :
    (measureTotal layout banner_key blocks).1 =
        (blocks.map specBlockHeight).sum + (specGaps layout banner_key blocks).sum ∧
      (anchorXY w h layout max_w (measureTotal layout banner_key blocks).1 banner_key
          layout_key).2 + (measureTotal layout banner_key blocks).1 = h - layout.padB := by
  constructor
  · show (measureGo layout banner_key blocks).1 + (measureGo layout banner_key blocks).2.sum
      = _
    rw [(measureGo_spec layout banner_key blocks).1, (measureGo_spec layout banner_key blocks).2]
    congr 2
    exact List.map_congr_left fun b hb => blockH_eq_spec b (hden b hb)
  · rcases hanchor with ha | ha <;> simp [anchorXY, ha]

/-- Witness for C7 at a concrete two-block stack on the bottom_left layout. -/
theorem measure_total_and_bottom_anchor_witness :
    (measureTotal layout0 "1200x1200" [block1, block2]).1 =
        (([block1, block2]).map specBlockHeight).sum +
          (specGaps layout0 "1200x1200" [block1, block2]).sum ∧
      (anchorXY 100 200 layout0 80 (measureTotal layout0 "1200x1200" [block1, block2]).1
          "1200x1200" "Yango_photo").2 +
        (measureTotal layout0 "1200x1200" [block1, block2]).1 = 200 - layout0.padB :=
  measure_total_and_bottom_anchor layout0 "1200x1200" "Yango_photo" [block1, block2]
    100 200 80 (Or.inl rfl) (by decide)

/-- C8 (amended): the effective alignment is right exactly when the request
language is Arabic or the block content is RTL with a top_right/bottom_right
anchor, and the style alignment (default left) otherwise. -/
theorem effectiveAlign_eq_amended (st : BStyle) (language : String) (lines : List String)
    (anchor : String) :
    effectiveAlign st language lines anchor = amendedAlignC8 st language lines anchor := by
  unfold effectiveAlign amendedAlignC8
  by_cases h1 : language = "Arabic" <;>
    by_cases h2 : is_rtl_text (joinSpace lines) = true ∧
      (anchor = "top_right" ∨ anchor = "bottom_right") <;>
    simp [h1, h2]

/-- C8 (counterexample): for the Arabic language with non-RTL content and a
top_left anchor, the code forces right alignment while the claimed rule
(right exactly when the content is RTL and the anchor is right-side) yields
the style's left. -/
theorem effectiveAlign_cex :
    effectiveAlign styleLeft "Arabic" ["hello"] "top_left" = "right" ∧
      claimedAlignC8 styleLeft ["hello"] "top_left" = "left" ∧
      effectiveAlign styleLeft "Arabic" ["hello"] "top_left" ≠
        claimedAlignC8 styleLeft ["hello"] "top_left" := by
  decide

theorem hasArabicChar_iff (s : String) :
    hasArabicChar s = true ↔ ¬ noArabicRangeChar s := by
  unfold hasArabicChar noArabicRangeChar inArabicRange
  rw [List.any_eq_true]
  push_neg
  constructor
  · rintro ⟨c, hc, hpred⟩
    exact ⟨c, hc, by simpa using hpred⟩
  · rintro ⟨c, hc, hpred⟩
    exact ⟨c, hc, by simpa using hpred⟩

/-- C9 (amended): normalize_text returns the input unchanged exactly when no
character lies in the Arabic range U+0600..U+06FF (in particular Hebrew-only
text is NOT normalized), and otherwise returns the reshaped then
bidi-reordered text. -/
theorem normalize_text_arabic_range_only (reshape bidi : String → String) (text : String) :
    (noArabicRangeChar text → normalize_text reshape bidi text = text) ∧
      (¬ noArabicRangeChar text →
        normalize_text reshape bidi text = bidi (reshape text)) := by
  constructor
  · intro h
    exact normalize_text_no_arabic reshape bidi
      (Bool.eq_false_iff.mpr fun htrue => (hasArabicChar_iff text).mp htrue h)
  · intro h
    unfold normalize_text
    rw [(hasArabicChar_iff text).mpr h]
    rfl

/-- Witness for the amended C9 theorem: plain text is unchanged; Arabic text
goes through both collaborators. -/
theorem normalize_text_arabic_range_only_witness :
    normalize_text (fun s => s ++ "R") (fun s => s ++ "B") "hello" = "hello" ∧
      normalize_text (fun s => s ++ "R") (fun s => s ++ "B") "سعر" =
        (fun s => s ++ "B") ((fun s => s ++ "R") "سعر") :=
  ⟨(normalize_text_arabic_range_only (fun s => s ++ "R") (fun s => s ++ "B") "hello").1
      (by decide),
   (normalize_text_arabic_range_only (fun s => s ++ "R") (fun s => s ++ "B") "سعر").2
      (by decide)⟩

/-- C9 (counterexample): the Hebrew letter aleph lies in the Hebrew range
U+0590..U+05FF, yet normalize_text returns it unchanged and never calls the
reshape/bidi collaborators (witnessed by marker-appending collaborators). -/
theorem normalize_text_hebrew_unchanged_cex :
    (0x590 ≤ 'א'.toNat ∧ 'א'.toNat ≤ 0x5FF) ∧
      normalize_text (fun s => s ++ "R") (fun s => s ++ "B") "א" = "א" ∧
      normalize_text (fun s => s ++ "R") (fun s => s ++ "B") "א" ≠
        (fun s => s ++ "B") ((fun s => s ++ "R") "א") := by
  decide
